import Mathlib

/-!
Verification of the typed HTTP client (`src/lib/index.ts`) against its
natural-language specification.

The embedding below translates the client's pure logic into Lean:

* JavaScript runtime values that the client inspects (JSON bodies, header
  maps, body payloads) become inductive types;
* the stateful request pipeline becomes an explicit function from the
  client configuration, the call arguments and the behaviour of the two
  platform collaborators (`new URL` validity and the transport outcome) to
  the returned result plus an effect ledger (how many times the
  default-header supplier, the transport, the timer and the error
  formatter ran, and the final header map handed to the transport);
* thrown JavaScript errors become `Except` values, and the `try`/`catch`
  of `HttpClient.request` becomes a `match` on them;
* `await` points are collapsed: a settled promise is its value, a rejected
  `response.json()` is modelled as an absent decoded body.

Machine-facing remarks on which source lines each definition embeds are
given in the doc comments.
-/

/-- JavaScript values the client inspects when it reads a decoded JSON
body: `null`, strings and objects (the only shapes the claims exercise;
the client itself only ever reads `.message` and `.error.message`). -/
inductive Js where
  | null : Js
  | str (s : String) : Js
  | obj (fields : List (String × Js)) : Js

/-- JavaScript truthiness for an optional value (`none` models
`undefined`): `undefined`, `null` and `""` are falsy, every other string
and every object is truthy. -/
def jsTruthy : Option Js → Bool
  | none => false
  | some Js.null => false
  | some (Js.str s) => !(s == "")
  | some (Js.obj _) => true

/-- The JavaScript `a || b` operator on optional values: returns `a` when
`a` is truthy, `b` otherwise. -/
def jsOr (a b : Option Js) : Option Js :=
  if jsTruthy a then a else b

/-- Optional-chaining property access `x?.k`: `undefined` and `null`
propagate, a string has no such property, an object yields the field when
present. -/
def jsField : Option Js → String → Option Js
  | some (Js.obj fields), k =>
      match fields.find? (fun f => f.1 == k) with
      | some f => some f.2
      | none => none
  | _, _ => none

/-- Hexadecimal digit (uppercase, as produced by `encodeURIComponent`). -/
def hexDigitUpper (n : Nat) : Char :=
  if n < 10 then Char.ofNat (48 + n) else Char.ofNat (55 + n)

/-- Hexadecimal digit (lowercase, as produced by `JSON.stringify` for
control characters). -/
def hexDigitLower (n : Nat) : Char :=
  if n < 10 then Char.ofNat (48 + n) else Char.ofNat (87 + n)

/-- UTF-8 encoding of one character as its byte values. -/
def utf8Bytes (c : Char) : List Nat :=
  let n := c.toNat
  if n < 128 then [n]
  else if n < 2048 then [192 + n / 64, 128 + n % 64]
  else if n < 65536 then [224 + n / 4096, 128 + (n / 64) % 64, 128 + n % 64]
  else [240 + n / 262144, 128 + (n / 4096) % 64, 128 + (n / 64) % 64, 128 + n % 64]

/-- Characters that `encodeURIComponent` leaves unescaped:
alphanumerics and `- _ . ! ~ * ' ( )`. -/
def isUnescapedURI (c : Char) : Bool :=
  c.isAlphanum || c == '-' || c == '_' || c == '.' || c == '!' ||
    c == '~' || c == '*' || c == Char.ofNat 39 || c == '(' || c == ')'

/-- `encodeURIComponent`: unescaped characters pass through, every other
character is written as the percent-encoded bytes of its UTF-8 form. -/
def encodeURIComponent (s : String) : String :=
  String.mk ((s.data.map (fun c =>
    if isUnescapedURI c then [c]
    else (utf8Bytes c).map (fun b => ['%', hexDigitUpper (b / 16), hexDigitUpper (b % 16)]) |>.flatten)).flatten)

/-- One character of a JSON string literal, escaped as `JSON.stringify`
escapes it. -/
def escapeJsonChar (c : Char) : List Char :=
  if c == '"' then ['\\', '"']
  else if c == '\\' then ['\\', '\\']
  else if c == Char.ofNat 8 then ['\\', 'b']
  else if c == Char.ofNat 9 then ['\\', 't']
  else if c == Char.ofNat 10 then ['\\', 'n']
  else if c == Char.ofNat 12 then ['\\', 'f']
  else if c == Char.ofNat 13 then ['\\', 'r']
  else if c.toNat < 32 then
    ['\\', 'u', '0', '0', hexDigitLower (c.toNat / 16), hexDigitLower (c.toNat % 16)]
  else [c]

/-- A JSON string literal with quotes and escapes. -/
def jsonQuote (s : String) : String :=
  String.mk ('"' :: (s.data.map escapeJsonChar).flatten ++ ['"'])

mutual

/-- `JSON.stringify` on the modelled JavaScript values. -/
def Js.stringify : Js → String
  | Js.null => "null"
  | Js.str s => jsonQuote s
  | Js.obj fields => "\x7b" ++ Js.stringifyFields fields ++ "\x7d"

/-- Comma-separated `"key":value` pairs of an object body. -/
def Js.stringifyFields : List (String × Js) → String
  | [] => ""
  | (k, v) :: rest =>
      jsonQuote k ++ ":" ++ Js.stringify v ++
        (match rest with
         | [] => ""
         | _ => "," ++ Js.stringifyFields rest)

end

/-- Substring helper: does the second list occur at the head of the first
argument's suffix? (`leadsWith sub s` means `s` starts with `sub`.) -/
def leadsWith : List Char → List Char → Bool
  | [], _ => true
  | _ :: _, [] => false
  | a :: as, b :: bs => a == b && leadsWith as bs

/-- Does `sub` occur anywhere in `s`? -/
def containsAt (sub : List Char) : List Char → Bool
  | [] => leadsWith sub []
  | c :: rest => leadsWith sub (c :: rest) || containsAt sub rest

/-- The JavaScript `s.includes(sub)` substring test. -/
def strContains (s sub : String) : Bool :=
  containsAt sub.data s.data

/-- The JavaScript `s.startsWith(p)` test. -/
def strLeads (s p : String) : Bool :=
  leadsWith p.data s.data

/-- Resolution of one matched `:identifier` token of
`HttpClient.interpolatePathParams` (src/lib/index.ts:118-122): look the
key up in the parameter map, raise `Missing required path parameter: key`
when absent, otherwise substitute the URL-encoded `String(value)` form. -/
def finalizeKey (params : List (String × String)) (key : List Char) :
    Except String (List Char) :=
  match params.find? (fun p => p.1 == String.mk key) with
  | none => Except.error ("Missing required path parameter: " ++ String.mk key)
  | some p => Except.ok (encodeURIComponent p.2).data

/-- The replacement loop of `HttpClient.interpolatePathParams`
(src/lib/index.ts:116-124): every occurrence of `:identifier` (a letter
followed by alphanumerics, matched maximally — exactly what the regular
expression `:([a-zA-Z][a-zA-Z0-9]*)/g` matches) is replaced via
`finalizeKey`.  The single left-to-right pass mirrors the global-replace
scan: outside a token, a `:` followed by a letter opens a token
(accumulated in the first argument), any other character is copied;
inside a token, alphanumerics extend it and any other character (or the
end of input) closes it. -/
def interpolateGo (params : List (String × String)) :
    Option (List Char) → List Char → Except String (List Char)
  | none, [] => Except.ok []
  | some key, [] => finalizeKey params key
  | some key, c :: rest =>
      if c.isAlphanum then interpolateGo params (some (key ++ [c])) rest
      else
        match finalizeKey params key with
        | Except.error e => Except.error e
        | Except.ok repl =>
            if c == ':' && (match rest with | d :: _ => d.isAlpha | [] => false) then
              match interpolateGo params (some []) rest with
              | Except.ok t => Except.ok (repl ++ t)
              | Except.error e => Except.error e
            else
              match interpolateGo params none rest with
              | Except.ok t => Except.ok (repl ++ c :: t)
              | Except.error e => Except.error e
  | none, c :: rest =>
      if c == ':' && (match rest with | d :: _ => d.isAlpha | [] => false) then
        match interpolateGo params (some []) rest with
        | Except.ok t => Except.ok t
        | Except.error e => Except.error e
      else
        match interpolateGo params none rest with
        | Except.ok t => Except.ok (c :: t)
        | Except.error e => Except.error e

/-- `HttpClient.interpolatePathParams` (src/lib/index.ts:116-124) on
strings; `Except.error` models the thrown `Error`'s message. -/
def interpolatePathParams (path : String) (params : List (String × String)) :
    Except String String :=
  (interpolateGo params none path.data).map String.mk

/-- Validation issue of the standard-schema protocol
(`StandardSchemaV1.Issue`): the client reads only its `message`. -/
structure Issue where
  message : String
deriving DecidableEq

/-- The values the response parser hands to a validation schema and back
to the caller: a decoded JSON body or a text body. -/
inductive DecodedValue where
  | js (j : Js) : DecodedValue
  | text (s : String) : DecodedValue

/-- Result of a standard-schema `validate` call: either a (possibly
coerced) value or an issue list.  The source tests `result.issues`
truthily, so an issue list is a failure even when it is empty. -/
inductive ValidateOutcome where
  | value (v : DecodedValue) : ValidateOutcome
  | issues (l : List Issue) : ValidateOutcome

/-- A per-request schema argument: `isStd` models the
`isStandardSchema` marker test (src/lib/schema.ts: the `~standard` field
is truthy), `validate` the `schema['~standard'].validate` entry point
with its `await` collapsed. -/
structure Schema where
  isStd : Bool
  validate : DecodedValue → ValidateOutcome

/-- A transport response as the parser observes it
(src/lib/index.ts:170-216): the HTTP status (`response.ok` is
`200 ≤ status ≤ 299`), the `content-type` response header, the result of
`response.json()` (`none` models a rejected decode) and the result of
`response.text()`. -/
structure RawResponse where
  status : Nat
  contentType : Option String
  jsonBody : Option Js
  textBody : String

/-- `Response.ok` of the fetch API: status in the inclusive success
range 200-299. -/
def respOk (r : RawResponse) : Bool :=
  decide (200 ≤ r.status) && decide (r.status ≤ 299)

/-- Error categories of `HttpError` (src/lib/index.ts:21-26). -/
inductive ErrorKind where
  | network | timeout | parse | validation | response
deriving DecidableEq

/-- `HttpError` (src/lib/index.ts:21-26) as the runtime object: a `type`
tag, a `message` whose runtime value can be any JavaScript value or
`undefined` (modelled `Option Js`; the source computes it from
`errorData?.message || errorData?.error?.message`, which can be
`undefined`), the validation `errors`, and for response errors the
`status` and the `data` field — which the source at line 179 always sets
to the raw `response` object. -/
structure HttpError where
  type : ErrorKind
  message : Option Js
  errors : List Issue := []
  status : Nat := 0
  data : Option RawResponse := none

/-- `HttpResult` (src/lib/index.ts:11): success with data, or failure
with an `HttpError`.  The source type carries no other field. -/
inductive HttpResult (T : Type) where
  | success (data : T) : HttpResult T
  | failure (error : HttpError) : HttpResult T

/-- Is the result the failure variant? -/
def HttpResult.isFailure {T : Type} : HttpResult T → Bool
  | HttpResult.success _ => false
  | HttpResult.failure _ => true

/-- An error formatter (`HttpConfig.errors.format`,
src/lib/index.ts:50-52): from the error to the new message.  The default
formatter returns the existing message unchanged, so its result type is
the message type. -/
def FmtFn : Type := HttpError → Option Js

/-- The default error formatter installed by the constructor
(src/lib/index.ts:104-106): `(error) => error.message`. -/
def defaultFormat : FmtFn := fun e => e.message

/-- `HttpClient.formatError` (src/lib/index.ts:162-168): when the result
is a failure and a formatter is configured, the error's `message` field
is overwritten with the formatter's output.  The second component counts
how many times that assignment ran (instrumentation only; it does not
influence the result). -/
def formatError {T : Type} (fmt : Option FmtFn) (result : HttpResult T) :
    HttpResult T × Nat :=
  match result, fmt with
  | HttpResult.failure e, some f => (HttpResult.failure { e with message := f e }, 1)
  | r, _ => (r, 0)

/-- ASCII lowercasing of a header name, character by character. -/
def lowerChars (s : String) : List Char :=
  s.data.map Char.toLower

/-- Case-insensitive header-name equality, as the fetch `Headers` class
compares names. -/
def keyEq (a b : String) : Bool :=
  lowerChars a == lowerChars b

/-- `Headers.prototype.set`: replace the value of an existing entry with
the same (case-insensitive) name, else append the pair. -/
def hSet (l : List (String × String)) (k v : String) : List (String × String) :=
  if l.any (fun e => keyEq e.1 k) then
    l.map (fun e => if keyEq e.1 k then (e.1, v) else e)
  else l ++ [(k, v)]

/-- `Headers.prototype.get` (value only, case-insensitive name). -/
def hGet (l : List (String × String)) (n : String) : Option String :=
  (l.find? (fun e => keyEq e.1 n)).map (fun e => e.2)

/-- `Object.entries(map).forEach(([k, v]) => headers.set(k, v))`
(src/lib/index.ts:248-250 and 254-256): set every pair in order. -/
def setAll (l : List (String × String)) (kvs : List (String × String)) :
    List (String × String) :=
  kvs.foldl (fun acc kv => hSet acc kv.1 kv.2) l

/-- Request body payloads distinguished by `HttpClient.request`'s
`instanceof`/`typeof` dispatch (src/lib/index.ts:262-274): `null`,
`FormData`, `URLSearchParams`, `Blob` (with its declared `type` and
bytes), strings, and any other value (a JSON-serializable object,
modelled by its `Js` shape).  `Option BodyData` adds `undefined`. -/
inductive BodyData where
  | jsNull : BodyData
  | formData (parts : List (String × String)) : BodyData
  | urlParams (pairs : List (String × String)) : BodyData
  | blob (declaredType : String) (bytes : List Nat) : BodyData
  | str (s : String) : BodyData
  | other (j : Js) : BodyData

/-- The serialized body handed to `fetch` (src/lib/index.ts:260):
pass-through payloads or a string. -/
inductive BodyInit where
  | str (s : String) : BodyInit
  | formData (parts : List (String × String)) : BodyInit
  | urlParams (pairs : List (String × String)) : BodyInit
  | blob (declaredType : String) (bytes : List Nat) : BodyInit

/-- `HttpClient.getContentType` (src/lib/index.ts:150-160), first match
wins: `undefined`/`null` and `FormData` yield no content type,
`URLSearchParams` is form-urlencoded, a `Blob` keeps its declared type
(falling back to `application/octet-stream` when it is the empty
string, the JavaScript `data.type || ...`), strings are `text/plain`,
anything else is JSON. -/
def getContentType (data : Option BodyData) : Option String :=
  match data with
  | none => none
  | some BodyData.jsNull => none
  | some (BodyData.formData _) => none
  | some (BodyData.urlParams _) => some "application/x-www-form-urlencoded"
  | some (BodyData.blob t _) => some (if t == "" then "application/octet-stream" else t)
  | some (BodyData.str _) => some "text/plain"
  | some (BodyData.other _) => some "application/json"

/-- Body serialization in `HttpClient.request` (src/lib/index.ts:259-274):
`GET` and `HEAD` never serialize a body; otherwise `undefined`/`null`
yield none, `FormData`/`URLSearchParams`/`Blob`/strings pass through, and
anything else is `JSON.stringify`ed. -/
def computeBody (method : String) (data : Option BodyData) : Option BodyInit :=
  if !(method == "GET") && !(method == "HEAD") then
    match data with
    | none => none
    | some BodyData.jsNull => none
    | some (BodyData.formData fd) => some (BodyInit.formData fd)
    | some (BodyData.urlParams ps) => some (BodyInit.urlParams ps)
    | some (BodyData.blob t bs) => some (BodyInit.blob t bs)
    | some (BodyData.str s) => some (BodyInit.str s)
    | some (BodyData.other j) => some (BodyInit.str (Js.stringify j))
  else none

/-- The `Content-Type` header value the request sets after serializing
the body (src/lib/index.ts:276-279): only when a body exists and the
negotiated content type is non-null. -/
def sentContentType (method : String) (data : Option BodyData) : Option String :=
  match computeBody method data, getContentType data with
  | some _, some ct => some ct
  | _, _ => none

/-- Application of lines 276-278 to a header map: set `Content-Type`
exactly when `sentContentType` yields a value. -/
def applyContentType (l : List (String × String)) (method : String)
    (data : Option BodyData) : List (String × String) :=
  match computeBody method data, getContentType data with
  | some _, some ct => hSet l "Content-Type" ct
  | _, _ => l

/-- The raw (pre-formatting) response error built at
src/lib/index.ts:173-181: `errorData` is the decoded JSON body or `null`
when decoding rejected, the message is
`errorData?.message || errorData?.error?.message`, the `status` is the
HTTP status, and the `data` field is set to the raw `response` object
(line 179). -/
def responseRaw (response : RawResponse) : HttpError :=
  let errorData : Js := response.jsonBody.getD Js.null
  { type := ErrorKind.response,
    message := jsOr (jsField (some errorData) "message")
      (jsField (jsField (some errorData) "error") "message"),
    status := response.status,
    data := some response }

/-- The raw parse error built in the `catch` at src/lib/index.ts:208-214. -/
def parseFailRaw : HttpError :=
  { type := ErrorKind.parse, message := some (Js.str "Failed to parse response") }

/-- The raw validation error built at src/lib/index.ts:193-200. -/
def validationRaw (i : Issue) (rest : List Issue) : HttpError :=
  { type := ErrorKind.validation, message := some (Js.str i.message),
    errors := i :: rest }

/-- The raw network error built at src/lib/index.ts:297-300. -/
def networkRaw : HttpError :=
  { type := ErrorKind.network, message := some (Js.str "Network request failed") }

/-- The raw timeout error built at src/lib/index.ts:291-294. -/
def timeoutRaw : HttpError :=
  { type := ErrorKind.timeout, message := some (Js.str "Request timed out") }

/-- `HttpClient.parseResponse` (src/lib/index.ts:170-216), with the
formatter-run count of `formatError` threaded through.  For a non-ok
status the failure is `responseRaw`.  For an ok status: decode JSON when
the content type contains `application/json` (a rejected decode lands in
the `catch` as a parse failure), else take the text body; a recognized
schema then validates the decoded value — an issue list yields a
validation failure taking its message from the first issue, and reading
`issues[0]` of an empty issue list throws inside the `try`, which the
`catch` turns into the same parse failure. -/
def parseResponse (fmt : Option FmtFn) (response : RawResponse)
    (schema : Option Schema) : HttpResult DecodedValue × Nat :=
  if !(respOk response) then
    formatError fmt (HttpResult.failure (responseRaw response))
  else
    match (if (match response.contentType with
               | some ct => strContains ct "application/json"
               | none => false)
           then response.jsonBody.map DecodedValue.js
           else some (DecodedValue.text response.textBody)) with
    | none => formatError fmt (HttpResult.failure parseFailRaw)
    | some d =>
        match schema with
        | some s =>
            if s.isStd then
              match s.validate d with
              | ValidateOutcome.value v => (HttpResult.success v, 0)
              | ValidateOutcome.issues [] =>
                  formatError fmt (HttpResult.failure parseFailRaw)
              | ValidateOutcome.issues (i :: rest) =>
                  formatError fmt (HttpResult.failure (validationRaw i rest))
            else (HttpResult.success d, 0)
        | none => (HttpResult.success d, 0)

/-- `HttpClient.isExternalUrl` (src/lib/index.ts:126-128). -/
def isExternalUrl (path : String) : Bool :=
  strLeads path "https://" || strLeads path "http://"

/-- The base-address computation of the constructor
(src/lib/index.ts:100): `config.endpoint[config.endpoint.length - 1]` is
the last character (or `undefined` for the empty string); when that
character exists — any single-character string is truthy — the endpoint
is stored without its last character (`slice(0, length - 1)`), otherwise
unchanged. -/
def normalizeEndpoint (endpoint : String) : String :=
  match endpoint.data.get? (endpoint.length - 1) with
  | some _ => String.mk endpoint.data.dropLast
  | none => endpoint

/-- The request descriptor handed to the default-header supplier
(src/lib/index.ts:30-36 and 239-245). -/
structure RequestDetails where
  method : String
  path : String
  data : Option BodyData
  params : Option (List (String × String))
  query : Option (List (String × String))

/-- The state the constructor stores (src/lib/index.ts:96-108): the
normalized base address, the default-header supplier (defaulting to one
returning no headers), the default timeout (defaulting to 30000 ms) and
the error formatter (`none` models a user-supplied `errors` object
without a `format` field, in which case `formatError` rewrites
nothing). -/
structure ClientState where
  baseURL : String
  headersSup : RequestDetails → List (String × String)
  timeout : Nat
  fmt : Option FmtFn

/-- The constructor `new HttpClient(config)` (src/lib/index.ts:99-108). -/
def mkHttpClient (endpoint : String)
    (headers : Option (RequestDetails → List (String × String)))
    (timeout : Option Nat) (errors : Option (Option FmtFn)) : ClientState :=
  { baseURL := normalizeEndpoint endpoint,
    headersSup := headers.getD (fun _ => []),
    timeout := timeout.getD 30000,
    fmt := match errors with
           | some f => f
           | none => some defaultFormat }

/-- The per-request configuration bag (src/lib/index.ts:66-72). -/
structure RequestConfigM where
  timeout : Option Nat := none
  headers : Option (List (String × String)) := none
  schema : Option Schema := none
  search : Option (List (String × String)) := none
  params : Option (List (String × String)) := none

/-- The URL string `HttpClient.buildUrl` (src/lib/index.ts:130-148) hands
to the `new URL` constructor: the path is interpolated first when a
path-parameter map is supplied (which can raise the missing-parameter
error), and the base address is prepended exactly when the original path
is not external.  Query parameters are appended afterwards onto the URL
object and the platform's URL normalization is the external collaborator,
so they are not part of this string. -/
def buildUrlInput (baseURL path : String)
    (pathParams : Option (List (String × String))) : Except String String :=
  match (match pathParams with
         | some ps => interpolatePathParams path ps
         | none => Except.ok path) with
  | Except.error e => Except.error e
  | Except.ok interpolatedPath =>
      Except.ok (if isExternalUrl path then interpolatedPath
                 else baseURL ++ interpolatedPath)

/-- Behaviour of the single transport call (`fetch`) of one request: it
resolves with a response, or rejects with an error carrying a name — the
timer's cancellation rejects with name `AbortError`, any other transport
failure with another name. -/
inductive TransportOutcome where
  | resolves (response : RawResponse) : TransportOutcome
  | rejects (errorName : String) : TransportOutcome

/-- Observable effects of one `request` call: how often the
default-header supplier ran, how often the transport was invoked, how
many timers were armed (`createAbortController`, src/lib/index.ts:110-114,
arms one `setTimeout`) and disarmed (the source contains no
`clearTimeout`, so no disarm event can ever be recorded), the duration
the timer was armed with, how often a failure message was rewritten by
the formatter, and the final header map passed to `fetch`. -/
structure EffectLog where
  supplierCalls : Nat
  transportCalls : Nat
  timersArmed : Nat
  timersCleared : Nat
  timerDuration : Nat
  messageRewrites : Nat
  headersFinal : List (String × String)

/-- The `try`/`catch` block of `HttpClient.request`
(src/lib/index.ts:280-301), yielding the result, the number of transport
invocations (0 or 1) and the number of formatter message rewrites.
Inside the `try`, `buildUrl` may raise the missing-parameter error or the
`new URL` constructor a `TypeError` (the `urlOk` collaborator); neither
error is named `AbortError`, so the catch produces a network failure
without invoking the transport.  Otherwise the transport runs: a
resolution is parsed, a rejection named `AbortError` becomes a timeout
failure, and any other rejection a network failure. -/
def requestOutcome (fmt : Option FmtFn) (baseURL : String) (urlOk : String → Bool)
    (path : String) (params : Option (List (String × String)))
    (schema : Option Schema) (transport : TransportOutcome) :
    HttpResult DecodedValue × Nat × Nat :=
  match buildUrlInput baseURL path params with
  | Except.error _ =>
      let (r, n) := formatError fmt (HttpResult.failure networkRaw)
      (r, 0, n)
  | Except.ok url =>
      if urlOk url then
        match transport with
        | TransportOutcome.resolves response =>
            let (r, n) := parseResponse fmt response schema
            (r, 1, n)
        | TransportOutcome.rejects errorName =>
            if errorName == "AbortError" then
              let (r, n) := formatError fmt (HttpResult.failure timeoutRaw)
              (r, 1, n)
            else
              let (r, n) := formatError fmt (HttpResult.failure networkRaw)
              (r, 1, n)
      else
        let (r, n) := formatError fmt (HttpResult.failure networkRaw)
        (r, 0, n)

/-- `HttpClient.request` (src/lib/index.ts:227-302), instrumented with an
`EffectLog`.  Arguments beyond the source signature model the two
platform collaborators: `urlOk` tells whether the `new URL` constructor
accepts the composed string (it throws a `TypeError` otherwise, landing
in the catch), and `transport` is the behaviour of the `fetch` call.
Control flow mirrors the source: the timer is armed first (line 234); the
default-header supplier runs exactly when the path is not external
(lines 238-251); per-call headers are then set over the defaults
(lines 253-257); the body and its content type are computed
(lines 259-279); the `try`/`catch` is `requestOutcome`. -/
def request (cs : ClientState) (urlOk : String → Bool) (method path : String)
    (data : Option BodyData) (config : RequestConfigM)
    (transport : TransportOutcome) : HttpResult DecodedValue × EffectLog :=
  let isExternal := isExternalUrl path
  let timerDuration := (config.timeout.getD cs.timeout)
  let defaultHeaders :=
    if isExternal then []
    else cs.headersSup { method := method, path := path, data := data,
                         params := config.params, query := config.search }
  let supplierCalls := if isExternal then 0 else 1
  let withDefaults := setAll [] defaultHeaders
  let withOverrides := setAll withDefaults (config.headers.getD [])
  let headersFinal := applyContentType withOverrides method data
  let outcome : HttpResult DecodedValue × Nat × Nat :=
    requestOutcome cs.fmt cs.baseURL urlOk path config.params config.schema transport
  (outcome.1,
   { supplierCalls := supplierCalls,
     transportCalls := outcome.2.1,
     timersArmed := 1,
     timersCleared := 0,
     timerDuration := timerDuration,
     messageRewrites := outcome.2.2,
     headersFinal := headersFinal })

/-- Modelled from the spec: the plugin registry's response phase.  The
plugin system is documented (README `onResponse`; spec §4.4) but its
dispatch implementation is not under `src/`, so it is modelled from the
spec's words: hooks run in list order; a hook returning a non-empty
result replaces the current result for all subsequent hooks and for the
final return value; a hook returning nothing leaves the current result
unchanged.  A hook receives the response context, of which only the
current result matters here, and its `await` is collapsed. -/
def runResponsePhase {T : Type} (hooks : List (HttpResult T → Option (HttpResult T)))
    (result : HttpResult T) : HttpResult T :=
  hooks.foldl (fun current hook =>
    match hook current with
    | some replaced => replaced
    | none => current) result

/-- The replacement failure returned by the first example plugin. -/
def replacementFailure : HttpError :=
  { type := ErrorKind.response, message := some (Js.str "replaced"), status := 500 }

/-- A plugin whose `onResponse` always returns a replacement failure
(spec §8: "the first always returning a replacement failure"). -/
def replaceFailHook {T : Type} : HttpResult T → Option (HttpResult T) :=
  fun _ => some (HttpResult.failure replacementFailure)

/-- A plugin whose `onResponse` rewrites any failure's message to `"X"`
and returns nothing on success (spec §8: "the second transforming any
failure's message"). -/
def rewriteToXHook {T : Type} : HttpResult T → Option (HttpResult T) :=
  fun r =>
    match r with
    | HttpResult.failure e => some (HttpResult.failure { e with message := some (Js.str "X") })
    | HttpResult.success _ => none

/-- The result shape the spec describes (§3), written from the spec's
words to compare with the source's `HttpResult`: a success carries the
data and the response header collection, a failure carries the error and
the headers when available. -/
inductive SpecHttpResult (T : Type) where
  | success (data : T) (headers : List (String × String)) : SpecHttpResult T
  | failure (error : HttpError) (headers : Option (List (String × String))) : SpecHttpResult T

/-! Concrete fixtures used by the evaluation theorems below. -/

/-- A 404 response whose JSON body is `\x7b"message":"not found"\x7d`. -/
def resp404 : RawResponse :=
  { status := 404, contentType := some "application/json",
    jsonBody := some (Js.obj [("message", Js.str "not found")]), textBody := "" }

/-- A 404 response whose body is not JSON (`response.json()` rejects). -/
def resp404NoJson : RawResponse :=
  { status := 404, contentType := some "text/html",
    jsonBody := none, textBody := "oops" }

/-- A plain-text 200 response. -/
def respPong : RawResponse :=
  { status := 200, contentType := some "text/plain",
    jsonBody := none, textBody := "pong" }

/-- A client constructed with only an endpoint (all defaults). -/
def exClient : ClientState :=
  mkHttpClient "https://api.example.com/" none none none

/-- A client whose default-header supplier provides a `Content-Type`. -/
def ctClient : ClientState :=
  mkHttpClient "https://api.example.com/" (some (fun _ => [("Content-Type", "a")])) none none

/-- A client whose default-header supplier provides an `X-Auth` header. -/
def authClient : ClientState :=
  mkHttpClient "https://api.example.com/" (some (fun _ => [("X-Auth", "a")])) none none

/-! Helper lemmas about the pipeline. -/

theorem formatError_some (f : FmtFn) {T : Type} (e : HttpError) :
    formatError (T := T) (some f) (HttpResult.failure e) =
      (HttpResult.failure { e with message := f e }, 1) := rfl

theorem formatError_failure_type (fmt : Option FmtFn) {T : Type} (e : HttpError) :
    ∃ e', (formatError (T := T) fmt (HttpResult.failure e)).1 = HttpResult.failure e' ∧
      e'.type = e.type := by
  cases fmt with
  | none => exact ⟨e, rfl, rfl⟩
  | some f => exact ⟨{ e with message := f e }, rfl, rfl⟩

/-- Every result of the response parser under a configured formatter is
either an unformatted success with no message rewrite, or a failure whose
message is the formatter applied exactly once to the raw error. -/
theorem parseResponse_shape (f : FmtFn) (resp : RawResponse) (schema : Option Schema) :
    (∃ v, parseResponse (some f) resp schema = (HttpResult.success v, 0)) ∨
    (∃ raw : HttpError, parseResponse (some f) resp schema =
      (HttpResult.failure { raw with message := f raw }, 1)) := by
  unfold parseResponse
  split
  · exact Or.inr ⟨responseRaw resp, rfl⟩
  · split
    · exact Or.inr ⟨parseFailRaw, rfl⟩
    · rename_i d _
      split
      · split
        · split
          · rename_i v _
            exact Or.inl ⟨v, rfl⟩
          · exact Or.inr ⟨parseFailRaw, rfl⟩
          · rename_i i rest _
            exact Or.inr ⟨validationRaw i rest, rfl⟩
        · exact Or.inl ⟨d, rfl⟩
      · exact Or.inl ⟨d, rfl⟩

/-- Outcome-level version of the exactly-once formatting property. -/
theorem requestOutcome_shape (f : FmtFn) (baseURL : String) (urlOk : String → Bool)
    (path : String) (params : Option (List (String × String)))
    (schema : Option Schema) (transport : TransportOutcome) :
    (∃ v k, requestOutcome (some f) baseURL urlOk path params schema transport =
      (HttpResult.success v, k, 0)) ∨
    (∃ (raw : HttpError) (k : Nat),
      requestOutcome (some f) baseURL urlOk path params schema transport =
      (HttpResult.failure { raw with message := f raw }, k, 1)) := by
  unfold requestOutcome
  cases hb : buildUrlInput baseURL path params with
  | error e => exact Or.inr ⟨networkRaw, 0, rfl⟩
  | ok url =>
      dsimp only
      cases hu : urlOk url with
      | false => exact Or.inr ⟨networkRaw, 0, rfl⟩
      | true =>
          cases transport with
          | resolves response =>
              rcases parseResponse_shape f response schema with ⟨v, hv⟩ | ⟨raw, hraw⟩
              · exact Or.inl ⟨v, 1, by simp [hv]⟩
              · exact Or.inr ⟨raw, 1, by simp [hraw]⟩
          | rejects errorName =>
              cases ha : errorName == "AbortError" with
              | true => exact Or.inr ⟨timeoutRaw, 1, by simp [ha, formatError]⟩
              | false => exact Or.inr ⟨networkRaw, 1, by simp [ha, formatError]⟩

theorem keyEq_eq (a b : String) : keyEq a b = true ↔ lowerChars a = lowerChars b := by
  unfold keyEq
  exact beq_iff_eq

theorem keyEq_eq_false (a b : String) : keyEq a b = false ↔ ¬ lowerChars a = lowerChars b := by
  unfold keyEq
  exact beq_eq_false_iff_ne

theorem keyEq_comm (a b : String) : keyEq a b = keyEq b a := by
  by_cases h : lowerChars a = lowerChars b
  · rw [(keyEq_eq a b).mpr h, Eq.symm ((keyEq_eq b a).mpr h.symm)]
  · rw [(keyEq_eq_false a b).mpr h, Eq.symm ((keyEq_eq_false b a).mpr (fun hh => h hh.symm))]

theorem hGet_map_replace_hit (l : List (String × String)) (k v n : String)
    (hnk : lowerChars n = lowerChars k) (hA : l.any (fun e => keyEq e.1 k) = true) :
    hGet (l.map (fun e => if keyEq e.1 k then (e.1, v) else e)) n = some v := by
  induction l with
  | nil => simp at hA
  | cons e rest ih =>
      rw [List.any_cons, Bool.or_eq_true] at hA
      by_cases he : keyEq e.1 k = true
      · have hen : keyEq e.1 n = true := by
          rw [keyEq_eq] at he ⊢
          exact he.trans hnk.symm
        unfold hGet
        rw [List.map_cons, if_pos he]
        simp only [List.find?_cons, hen, cond_true]
        rfl
      · have heb : keyEq e.1 k = false := by
          rw [Bool.not_eq_true] at he
          exact he
        have hen : keyEq e.1 n = false := by
          rw [keyEq_eq_false] at heb ⊢
          intro hh
          exact heb (hh.trans hnk)
        rw [List.map_cons, if_neg he]
        unfold hGet
        simp only [List.find?_cons, hen, cond_false]
        exact ih (hA.resolve_left (by rw [heb]; exact Bool.false_ne_true))

theorem hGet_map_replace_miss (l : List (String × String)) (k v n : String)
    (hnk : ¬ lowerChars n = lowerChars k) :
    hGet (l.map (fun e => if keyEq e.1 k then (e.1, v) else e)) n = hGet l n := by
  induction l with
  | nil => rfl
  | cons e rest ih =>
      by_cases he : keyEq e.1 k = true
      · have hen : keyEq e.1 n = false := by
          rw [keyEq_eq] at he
          rw [keyEq_eq_false]
          intro hh
          exact hnk (hh.symm.trans he)
        rw [List.map_cons, if_pos he]
        unfold hGet
        simp only [List.find?_cons, hen, cond_false]
        exact ih
      · rw [List.map_cons, if_neg he]
        unfold hGet
        cases hen : keyEq e.1 n with
        | true => simp only [List.find?_cons, hen, cond_true]
        | false =>
            simp only [List.find?_cons, hen, cond_false]
            exact ih

theorem hGet_none_of_any_false (l : List (String × String)) (k n : String)
    (hnk : lowerChars n = lowerChars k) (hA : l.any (fun e => keyEq e.1 k) = false) :
    hGet l n = none := by
  induction l with
  | nil => rfl
  | cons e rest ih =>
      rw [List.any_cons, Bool.or_eq_false_iff] at hA
      have hen : keyEq e.1 n = false := by
        rw [keyEq_eq_false]
        intro hh
        exact ((keyEq_eq_false e.1 k).mp hA.1) (hh.trans hnk)
      unfold hGet
      simp only [List.find?_cons, hen, cond_false]
      exact ih hA.2

theorem hGet_append_single (l : List (String × String)) (k v n : String) :
    hGet (l ++ [(k, v)]) n =
      match hGet l n with
      | some w => some w
      | none => if keyEq k n then some v else none := by
  unfold hGet
  rw [List.find?_append]
  cases hf : List.find? (fun e => keyEq e.1 n) l with
  | some e => rfl
  | none =>
      cases hkn : keyEq k n with
      | true =>
          simp only [Option.or, List.find?_cons, hkn, cond_true]
          rfl
      | false =>
          simp only [Option.or, List.find?_cons, hkn, cond_false, List.find?_nil]
          rfl

theorem hGet_hSet (l : List (String × String)) (k v n : String) :
    hGet (hSet l k v) n = if keyEq n k then some v else hGet l n := by
  unfold hSet
  by_cases hA : l.any (fun e => keyEq e.1 k) = true
  · rw [if_pos hA]
    by_cases hnk : keyEq n k = true
    · rw [if_pos hnk, hGet_map_replace_hit l k v n ((keyEq_eq n k).mp hnk) hA]
    · have hnk2 : ¬ lowerChars n = lowerChars k := by
        rw [Bool.not_eq_true] at hnk
        exact (keyEq_eq_false n k).mp hnk
      rw [if_neg hnk, hGet_map_replace_miss l k v n hnk2]
  · rw [if_neg hA]
    have hA2 : l.any (fun e => keyEq e.1 k) = false := by
      rw [Bool.not_eq_true] at hA
      exact hA
    rw [hGet_append_single]
    by_cases hnk : keyEq n k = true
    · rw [hGet_none_of_any_false l k n ((keyEq_eq n k).mp hnk) hA2]
      have hkn : keyEq k n = true := by
        rw [keyEq_comm]
        exact hnk
      simp [hkn, hnk]
    · rw [if_neg hnk]
      cases hg : hGet l n with
      | some w => rfl
      | none =>
          have hkn : keyEq k n = false := by
            rw [keyEq_comm]
            rw [Bool.not_eq_true] at hnk
            exact hnk
          simp [hkn]

/-- The last (hence winning) value that `setAll` writes for a name. -/
def lastMatch : List (String × String) → String → Option String
  | [], _ => none
  | (k, w) :: rest, n =>
      match lastMatch rest n with
      | some v => some v
      | none => if keyEq k n then some w else none

theorem hGet_setAll (kvs l : List (String × String)) (n : String) :
    hGet (setAll l kvs) n =
      match lastMatch kvs n with
      | some v => some v
      | none => hGet l n := by
  induction kvs generalizing l with
  | nil => rfl
  | cons kv rest ih =>
      obtain ⟨k, w⟩ := kv
      have hstep : setAll l ((k, w) :: rest) = setAll (hSet l k w) rest := rfl
      rw [hstep, ih (hSet l k w)]
      cases hr : lastMatch rest n with
      | some v => simp [lastMatch, hr]
      | none =>
          simp only [hr]
          rw [hGet_hSet]
          by_cases hnk : keyEq n k = true
          · have hkn : keyEq k n = true := by
              rw [keyEq_comm]
              exact hnk
            simp [lastMatch, hr, hkn, hnk]
          · have hkn : keyEq k n = false := by
              rw [keyEq_comm]
              rw [Bool.not_eq_true] at hnk
              exact hnk
            simp [lastMatch, hr, hkn, hnk]

/-- A name resolved by the per-call override map alone keeps that value no
matter what header map the overrides were set over. -/
theorem hGet_setAll_override (kvs : List (String × String)) (n v : String)
    (h : hGet (setAll [] kvs) n = some v) (l : List (String × String)) :
    hGet (setAll l kvs) n = some v := by
  have h0 := hGet_setAll kvs [] n
  have h1 := hGet_setAll kvs l n
  cases hr : lastMatch kvs n with
  | some w =>
      rw [hr] at h0 h1
      simp only [] at h0 h1
      rw [h1, ← h0]
      exact h
  | none =>
      rw [hr] at h0
      simp only [] at h0
      rw [h0] at h
      simp [hGet] at h

/-! The claim theorems. -/

/-- C1: In the plugin response phase, hooks run in list order; a hook
returning a non-empty result replaces the current result for all
subsequent hooks and for the final return value, while a hook returning
nothing leaves it unchanged.  In particular, a first plugin always
returning a replacement failure followed by a second rewriting any
failure's message to "X" yields, for every request outcome, a failure
whose message is exactly "X". -/
theorem c1_response_phase_chain :
    (∀ (T : Type) (hook : HttpResult T → Option (HttpResult T))
        (hooks : List (HttpResult T → Option (HttpResult T))) (r : HttpResult T),
      runResponsePhase (hook :: hooks) r =
        runResponsePhase hooks ((hook r).getD r)) ∧
    (∀ (T : Type) (r : HttpResult T),
      ∃ e, runResponsePhase [replaceFailHook, rewriteToXHook] r = HttpResult.failure e ∧
        e.message = some (Js.str "X")) := by
  constructor
  · intro T hook hooks r
    unfold runResponsePhase
    rw [List.foldl_cons]
    congr 1
    cases hook r with
    | some replaced => rfl
    | none => rfl
  · intro T r
    exact ⟨{ replacementFailure with message := some (Js.str "X") }, rfl, rfl⟩

/-- C2 (evaluation at the failing input): a 404 transport response with
JSON body holding message "not found" yields a response failure with
status 404 and message "not found", but its `data` field holds the raw
response object (src/lib/index.ts:179), not the decoded body that the
claim — and the bundled `formatHttpError`, which reads
`error.data.message` — expects. -/
theorem c2_response_error_data_raw :
    parseResponse (some defaultFormat) resp404 none =
      (HttpResult.failure
        { type := ErrorKind.response,
          message := some (Js.str "not found"), errors := [], status := 404,
          data := some resp404 }, 1) := rfl

/-- C3 (evaluation at the failing input): a path template whose `:id`
token has no entry in the supplied parameter map makes the interpolation
raise the missing-parameter error and the transport is never invoked, but
the request's catch-all converts the raised error into a network failure
with message "Network request failed" — the missing-parameter message is
swallowed. -/
theorem c3_missing_param_reported_as_network :
    interpolatePathParams "/users/:id" [] =
      Except.error "Missing required path parameter: id" ∧
    request exClient (fun _ => true) "GET" "/users/:id" none
        { params := some [] } (TransportOutcome.resolves resp404) =
      (HttpResult.failure
        { type := ErrorKind.network,
          message := some (Js.str "Network request failed") },
       { supplierCalls := 1, transportCalls := 0, timersArmed := 1,
         timersCleared := 0, timerDuration := 30000, messageRewrites := 1,
         headersFinal := [] }) := ⟨rfl, rfl⟩

/-- C4 (counterexample): with the default formatter, a 404 response whose
body fails to decode as JSON yields a failure whose message is undefined —
the claim's guarantee that every observable failure message is non-empty
fails at this input. -/
theorem c4_empty_message_counterexample :
    (parseResponse (some defaultFormat) resp404NoJson none).1 =
      HttpResult.failure
        { type := ErrorKind.response, message := none,
          errors := [], status := 404, data := some resp404NoJson } ∧
    (parseResponse (some defaultFormat) resp404NoJson none).1.isFailure = true :=
  ⟨rfl, rfl⟩

/-- C4 (amended): for every request that returns a failure under a
configured error formatter, the message has been rewritten exactly once
by that formatter — the returned error is the formatter applied once to
the raw pipeline error — but the resulting message is not guaranteed
non-empty. -/
theorem c4_formatted_once (cs : ClientState) (f : FmtFn) (hf : cs.fmt = some f)
    (urlOk : String → Bool) (method path : String) (data : Option BodyData)
    (config : RequestConfigM) (transport : TransportOutcome) :
    ((request cs urlOk method path data config transport).1.isFailure = true →
      (request cs urlOk method path data config transport).2.messageRewrites = 1) ∧
    (∀ e, (request cs urlOk method path data config transport).1 = HttpResult.failure e →
      ∃ raw : HttpError, e = { raw with message := f raw }) := by
  have h1 : (request cs urlOk method path data config transport).1 =
      (requestOutcome cs.fmt cs.baseURL urlOk path config.params config.schema transport).1 := rfl
  have h2 : (request cs urlOk method path data config transport).2.messageRewrites =
      (requestOutcome cs.fmt cs.baseURL urlOk path config.params config.schema transport).2.2 := rfl
  rw [hf] at h1 h2
  rcases requestOutcome_shape f cs.baseURL urlOk path config.params config.schema transport with
    ⟨v, k, hv⟩ | ⟨raw, k, hraw⟩
  · constructor
    · intro hfail
      rw [h1, hv] at hfail
      simp [HttpResult.isFailure] at hfail
    · intro e he
      rw [h1, hv] at he
      simp at he
  · constructor
    · intro _
      rw [h2, hraw]
    · intro e he
      rw [h1, hraw] at he
      have he2 : HttpResult.failure { raw with message := f raw } = HttpResult.failure e := he
      injection he2 with hh
      exact ⟨raw, hh.symm⟩

/-- C4 (witness): a concrete timed-out request is a failure and its
message was rewritten exactly once. -/
theorem c4_formatted_once_witness :
    (request exClient (fun _ => true) "GET" "/a" none {}
      (TransportOutcome.rejects "AbortError")).2.messageRewrites = 1 :=
  (c4_formatted_once exClient defaultFormat rfl (fun _ => true) "GET" "/a" none {}
    (TransportOutcome.rejects "AbortError")).1 (by rfl)

/-- C5 (counterexample): the source's `HttpResult` success variant carries
no response header collection: the spec's headers-carrying successes
cannot be mapped injectively into `HttpResult` successes, because two
spec successes differing only in their headers would collapse. -/
theorem c5_no_headers_counterexample :
    ¬ ∃ f : SpecHttpResult Unit → HttpResult Unit,
        Function.Injective f ∧
        ∀ headers : List (String × String),
          ∃ d, f (SpecHttpResult.success () headers) = HttpResult.success d := by
  rintro ⟨f, hinj, hs⟩
  obtain ⟨d1, hd1⟩ := hs []
  obtain ⟨d2, hd2⟩ := hs [("a", "b")]
  have hd : d1 = d2 := Subsingleton.elim d1 d2
  have heq : SpecHttpResult.success () ([] : List (String × String)) =
      SpecHttpResult.success () [("a", "b")] := by
    apply hinj
    rw [hd1, hd2, hd]
  simp at heq

/-- C5 (amended): `HttpResult` is a discriminated union with exactly one
variant holding at any time — a success carrying only the data or a
failure carrying only the error; neither carries headers. -/
theorem c5_exactly_one_variant (T : Type) (r : HttpResult T) :
    ((∃ d, r = HttpResult.success d) ∧ ¬ ∃ e, r = HttpResult.failure e) ∨
    ((∃ e, r = HttpResult.failure e) ∧ ¬ ∃ d, r = HttpResult.success d) := by
  cases r with
  | success d =>
      left
      refine ⟨⟨d, rfl⟩, ?_⟩
      rintro ⟨e, he⟩
      cases he
  | failure e =>
      right
      refine ⟨⟨e, rfl⟩, ?_⟩
      rintro ⟨d, hd⟩
      cases hd

/-- C6 (evaluation at the failing input): the constructor's base-address
computation drops the final character of every non-empty endpoint — an
endpoint without a trailing slash is also truncated, contradicting the
claim that it is stored unchanged. -/
theorem c6_endpoint_normalization :
    normalizeEndpoint "https://api.example.com" = "https://api.example.co" ∧
    normalizeEndpoint "https://api.example.com/" = "https://api.example.com" ∧
    ¬ normalizeEndpoint "https://api.example.com" = "https://api.example.com" :=
  ⟨rfl, rfl, by decide⟩

/-- Helper for C7: on an `AbortError` transport rejection, either the
transport was never reached (URL composition failed) or the result is a
timeout failure. -/
theorem requestOutcome_abort (fmt : Option FmtFn) (baseURL : String)
    (urlOk : String → Bool) (path : String)
    (params : Option (List (String × String))) (schema : Option Schema) :
    (requestOutcome fmt baseURL urlOk path params schema
        (TransportOutcome.rejects "AbortError")).2.1 = 0 ∨
    ∃ e, (requestOutcome fmt baseURL urlOk path params schema
        (TransportOutcome.rejects "AbortError")).1 = HttpResult.failure e ∧
      e.type = ErrorKind.timeout := by
  unfold requestOutcome
  cases hb : buildUrlInput baseURL path params with
  | error e => exact Or.inl rfl
  | ok url =>
      dsimp only
      cases hu : urlOk url with
      | false => exact Or.inl rfl
      | true =>
          rcases formatError_failure_type fmt timeoutRaw with ⟨e, he, ht⟩
          exact Or.inr ⟨e, he, ht⟩

/-- C7 (counterexample): after a normally completed request the armed
timer has not been disarmed — the source never calls `clearTimeout` — so
the claim that no residual timer ever fires after normal completion fails
here: one armed timer remains pending. -/
theorem c7_residual_timer_counterexample :
    (request exClient (fun _ => true) "GET" "/ping" none {}
        (TransportOutcome.resolves respPong)).1 =
      HttpResult.success (DecodedValue.text "pong") ∧
    (request exClient (fun _ => true) "GET" "/ping" none {}
        (TransportOutcome.resolves respPong)).2.timersArmed = 1 ∧
    (request exClient (fun _ => true) "GET" "/ping" none {}
        (TransportOutcome.resolves respPong)).2.timersCleared = 0 :=
  ⟨rfl, rfl, rfl⟩

/-- C7 (amended): a transport call that rejects with the timer's
`AbortError` yields a timeout failure; the per-call timer is armed with
the per-request override or the default duration, but it is never
disarmed — `timersCleared` is 0 for every outcome, so the timer fires
even after normal completion (harmlessly aborting a settled call). -/
theorem c7_timeout_and_timer (cs : ClientState) (urlOk : String → Bool)
    (method path : String) (data : Option BodyData) (config : RequestConfigM) :
    ((request cs urlOk method path data config
        (TransportOutcome.rejects "AbortError")).2.transportCalls = 1 →
      ∃ e, (request cs urlOk method path data config
        (TransportOutcome.rejects "AbortError")).1 = HttpResult.failure e ∧
        e.type = ErrorKind.timeout) ∧
    (∀ t : TransportOutcome,
      (request cs urlOk method path data config t).2.timersArmed = 1 ∧
      (request cs urlOk method path data config t).2.timersCleared = 0 ∧
      (request cs urlOk method path data config t).2.timerDuration =
        config.timeout.getD cs.timeout) := by
  constructor
  · intro htc
    have h2 : (request cs urlOk method path data config
        (TransportOutcome.rejects "AbortError")).2.transportCalls =
        (requestOutcome cs.fmt cs.baseURL urlOk path config.params config.schema
          (TransportOutcome.rejects "AbortError")).2.1 := rfl
    rw [h2] at htc
    rcases requestOutcome_abort cs.fmt cs.baseURL urlOk path config.params
        config.schema with h0 | ⟨e, he, ht⟩
    · rw [h0] at htc
      cases htc
    · exact ⟨e, he, ht⟩
  · intro t
    exact ⟨rfl, rfl, rfl⟩

/-- C7 (witness): a concrete aborted request yields a timeout failure. -/
theorem c7_timeout_witness :
    ∃ e, (request exClient (fun _ => true) "GET" "/a" none {}
        (TransportOutcome.rejects "AbortError")).1 = HttpResult.failure e ∧
      e.type = ErrorKind.timeout :=
  (c7_timeout_and_timer exClient (fun _ => true) "GET" "/a" none {}).1 (by rfl)

/-- C8 (counterexample): for an external path containing a `:id` token
and a supplied parameter map, the URL string composed for the transport
is the interpolated path — path-parameter substitution is applied — so
the composed URL does not equal the input path verbatim. -/
theorem c8_external_interpolated_counterexample :
    buildUrlInput "https://base" "https://x.com/items/:id" (some [("id", "5")]) =
      Except.ok "https://x.com/items/5" ∧
    ¬ ("https://x.com/items/5" = "https://x.com/items/:id") :=
  ⟨rfl, by decide⟩

/-- C8 (amended): for every path carrying an http(s) scheme, the base
address is never prepended — when no path-parameter map is supplied the
URL string composed for the transport equals the input path verbatim —
and the default-header supplier is never invoked; path-parameter
substitution is however applied to external paths when a map is
supplied. -/
theorem c8_external_behavior :
    (∀ baseURL path, isExternalUrl path = true →
      buildUrlInput baseURL path none = Except.ok path) ∧
    (∀ (cs : ClientState) (urlOk : String → Bool) (method path : String)
        (data : Option BodyData) (config : RequestConfigM) (t : TransportOutcome),
      isExternalUrl path = true →
      (request cs urlOk method path data config t).2.supplierCalls = 0) := by
  constructor
  · intro baseURL path hp
    unfold buildUrlInput
    rw [hp]
    rfl
  · intro cs urlOk method path data config t hp
    show (if isExternalUrl path then 0 else 1) = 0
    rw [hp]
    rfl

/-- C8 (witness): concrete external request — the composed URL string is
the path itself and the supplier never ran. -/
theorem c8_external_witness :
    buildUrlInput "https://base" "https://x.com/a" none = Except.ok "https://x.com/a" ∧
    (request exClient (fun _ => true) "GET" "https://x.com/a" none {}
      (TransportOutcome.resolves respPong)).2.supplierCalls = 0 :=
  ⟨c8_external_behavior.1 "https://base" "https://x.com/a" (by rfl),
   c8_external_behavior.2 exClient (fun _ => true) "GET" "https://x.com/a" none {}
     (TransportOutcome.resolves respPong) (by rfl)⟩

/-- C9: for `GET` and `HEAD` no body is ever serialized regardless of the
data argument; for every other method the serialized body and the
`Content-Type` header follow the first-match policy of
`getContentType`/`computeBody`: absent or null data yields no body and no
content type, `FormData` passes through with no content type,
`URLSearchParams` passes through as form-urlencoded, a binary payload
passes through with its declared type (else `application/octet-stream`),
a string passes through as `text/plain`, and anything else is
JSON-serialized as `application/json`. -/
theorem c9_body_policy :
    (∀ data : Option BodyData,
      computeBody "GET" data = none ∧ computeBody "HEAD" data = none) ∧
    (∀ method : String, method ≠ "GET" → method ≠ "HEAD" →
      (computeBody method none = none ∧ sentContentType method none = none) ∧
      (computeBody method (some BodyData.jsNull) = none ∧
        sentContentType method (some BodyData.jsNull) = none) ∧
      (∀ fd, computeBody method (some (BodyData.formData fd)) =
          some (BodyInit.formData fd) ∧
        sentContentType method (some (BodyData.formData fd)) = none) ∧
      (∀ ps, computeBody method (some (BodyData.urlParams ps)) =
          some (BodyInit.urlParams ps) ∧
        sentContentType method (some (BodyData.urlParams ps)) =
          some "application/x-www-form-urlencoded") ∧
      (∀ t bs, computeBody method (some (BodyData.blob t bs)) =
          some (BodyInit.blob t bs) ∧
        sentContentType method (some (BodyData.blob t bs)) =
          some (if t == "" then "application/octet-stream" else t)) ∧
      (∀ s, computeBody method (some (BodyData.str s)) = some (BodyInit.str s) ∧
        sentContentType method (some (BodyData.str s)) = some "text/plain") ∧
      (∀ j, computeBody method (some (BodyData.other j)) =
          some (BodyInit.str (Js.stringify j)) ∧
        sentContentType method (some (BodyData.other j)) =
          some "application/json")) := by
  constructor
  · intro data
    exact ⟨rfl, rfl⟩
  · intro method hG hH
    have hb : (!(method == "GET") && !(method == "HEAD")) = true := by
      simp only [Bool.and_eq_true, Bool.not_eq_eq_eq_not, Bool.not_true,
        beq_eq_false_iff_ne]
      exact ⟨hG, hH⟩
    have hcb : ∀ d : Option BodyData, computeBody method d =
        (match d with
         | none => none
         | some BodyData.jsNull => none
         | some (BodyData.formData fd) => some (BodyInit.formData fd)
         | some (BodyData.urlParams ps) => some (BodyInit.urlParams ps)
         | some (BodyData.blob t bs) => some (BodyInit.blob t bs)
         | some (BodyData.str s) => some (BodyInit.str s)
         | some (BodyData.other j) => some (BodyInit.str (Js.stringify j))) := by
      intro d
      unfold computeBody
      rw [hb]
      rfl
    refine ⟨⟨?_, ?_⟩, ⟨?_, ?_⟩, fun fd => ⟨?_, ?_⟩, fun ps => ⟨?_, ?_⟩,
      fun t bs => ⟨?_, ?_⟩, fun s => ⟨?_, ?_⟩, fun j => ⟨?_, ?_⟩⟩
    all_goals simp [sentContentType, getContentType, hcb]

/-- C9 (witness): a GET never serializes its string body; a POST passes a
string body through with `text/plain`. -/
theorem c9_body_policy_witness :
    computeBody "GET" (some (BodyData.str "hello")) = none ∧
    computeBody "POST" (some (BodyData.str "hello")) = some (BodyInit.str "hello") ∧
    sentContentType "POST" (some (BodyData.str "hello")) = some "text/plain" :=
  ⟨(c9_body_policy.1 (some (BodyData.str "hello"))).1,
   ((c9_body_policy.2 "POST" (by decide) (by decide)).2.2.2.2.2.1 "hello").1,
   ((c9_body_policy.2 "POST" (by decide) (by decide)).2.2.2.2.2.1 "hello").2⟩

/-- C10 (counterexample): when both the supplier and the per-call
override provide `Content-Type` and a body is serialized, the negotiated
content type — set after the overrides — is what reaches the transport,
not the per-call override's value. -/
theorem c10_content_type_counterexample :
    hGet ((request ctClient (fun _ => true) "POST" "/x"
        (some (BodyData.other (Js.obj [])))
        { headers := some [("Content-Type", "b")] }
        (TransportOutcome.resolves respPong)).2.headersFinal) "Content-Type" =
      some "application/json" ∧
    ¬ (some "application/json" = some ("b" : String)) :=
  ⟨rfl, by decide⟩

/-- C10 (amended): for every non-external request, a header name given a
value by the per-call overrides reaches the transport with the override's
value — per-call headers are applied after the supplier's and replace
them name by name — except for the `Content-Type` header when a body is
serialized with a negotiated content type, which is set after both and
replaces them. -/
theorem c10_override_wins (cs : ClientState) (urlOk : String → Bool)
    (method path : String) (data : Option BodyData) (config : RequestConfigM)
    (t : TransportOutcome) (name v : String)
    (_hext : isExternalUrl path = false)
    (hov : hGet (setAll [] (config.headers.getD [])) name = some v)
    (hct : keyEq name "Content-Type" = false ∨ sentContentType method data = none) :
    hGet ((request cs urlOk method path data config t).2.headersFinal) name = some v := by
  have hHF : (request cs urlOk method path data config t).2.headersFinal =
      applyContentType
        (setAll (setAll [] (if isExternalUrl path then []
            else cs.headersSup { method := method, path := path, data := data,
                                 params := config.params, query := config.search }))
          (config.headers.getD [])) method data := rfl
  rw [hHF]
  unfold applyContentType
  have hbase := hGet_setAll_override (config.headers.getD []) name v hov
  cases hcb : computeBody method data with
  | none => exact hbase _
  | some b =>
      cases hgc : getContentType data with
      | none => exact hbase _
      | some ct =>
          rw [hGet_hSet]
          have hkct : keyEq name "Content-Type" = false := by
            rcases hct with h | h
            · exact h
            · exfalso
              unfold sentContentType at h
              rw [hcb, hgc] at h
              cases h
          rw [if_neg (by rw [hkct]; exact Bool.false_ne_true)]
          exact hbase _

/-- C10 (witness): a concrete non-external request in which the supplier
and the per-call overrides both set `X-Auth` — the override's value is
the one in the final header map. -/
theorem c10_override_wins_witness :
    hGet ((request authClient (fun _ => true) "GET" "/x" none
        { headers := some [("X-Auth", "b")] }
        (TransportOutcome.resolves respPong)).2.headersFinal) "X-Auth" =
      some "b" :=
  c10_override_wins authClient (fun _ => true) "GET" "/x" none
    { headers := some [("X-Auth", "b")] } (TransportOutcome.resolves respPong)
    "X-Auth" "b" rfl rfl (Or.inl rfl)
